import Mathlib

/-!
# Verification of the RDMA_2 regime-aware backtesting framework

Shallow embedding of the repository's core components:

* `components/backtest_engine.py` — `BacktestEngine` (multi-strategy simulator),
* `components/regime_manager.py` — `VolatilityHMM` (fitted-regime lookup),
* `components/regime_detector.py` — `VolatilityRegimeDetector.fit_predict`
  (shares the argsort-based state relabelling with `VolatilityHMM.fit`),
* `user_strategies/temp_strategy.py` — `MeanReversionStrategy` (RSI),
* `user_strategies/dummy_strategy.py` — `TrendFollowingStrategy`,
* `config.py` — the module-level configuration read by the engine.

The files `components/portfolio.py` (class `Portfolio`) and
`components/transaction_costs.py` (class `TransactionCosts`) are imported and
called throughout the repository but are not present in it; they are modelled
from the specification (§4.1, §4.5), as is the `RegimeAwareWrapper` strategy
combinator (§4.4), which is imported from `components/strategy_wrapper.py` but
absent from that file (the file holds only the abstract interfaces).

Python floats are modelled as `ℚ`; the only places where IEEE specialities
(NaN, +inf) matter — the pandas RSI pipeline — carry an explicit `FVal` type.
Python exceptions are modelled with `Except Err`.  The opaque `hmmlearn`
Gaussian-HMM estimator is a parameter of the embedding (`HMMModel`): with the
fixed `random_state=42` its fitted means and Viterbi paths are deterministic
functions of the training series, which is exactly what the parameter records.
-/

/-- Python exceptions raised by the embedded code, named by the spec's §7
taxonomy.  `dataError` is the `KeyError` raised by `VolatilityHMM.fit` on a
missing `Volatility` column, `notFitted` the `ValueError` raised by
`detect_regime` before `fit`, `stateError` the spec §4.5 non-monotone-clock
failure, `keyError` any other missing-key lookup. -/
inductive Err where
  | stateError
  | notFitted
  | dataError
  | keyError
deriving DecidableEq

/-- A time-indexed table (a pandas `DataFrame`): a date index plus named
columns of rationals.  Columns are an association list in insertion order,
mirroring pandas' ordered columns. -/
structure DataFrame where
  index : List Nat
  cols : List (String × List ℚ)
deriving DecidableEq

/-- `df[c]` as an optional column: `none` models the Python `KeyError` /
`c not in df.columns` case. -/
def DataFrame.getCol (df : DataFrame) (c : String) : Option (List ℚ) :=
  (df.cols.find? (fun p => p.1 = c)).map Prod.snd

/-- `df[c] = v`: replace the first column named `c`, or append it —
pandas column assignment. -/
def setColList (c : String) (v : List ℚ) :
    List (String × List ℚ) → List (String × List ℚ)
  | [] => [(c, v)]
  | p :: rest => if p.1 = c then (c, v) :: rest else p :: setColList c v rest

def DataFrame.setCol (df : DataFrame) (c : String) (v : List ℚ) : DataFrame :=
  { df with cols := setColList c v df.cols }

/-- One row of a `DataFrame` (`data.iloc[i]`): the pandas `Series` carries its
date as `.name` and the column values as entries. -/
structure Row where
  name : Nat
  entries : List (String × ℚ)
deriving DecidableEq

/-- `row[c]` as an option (`none` models the missing-key case);
`row.get(c, d)` is `(Row.get row c).getD d`. -/
def Row.get (row : Row) (c : String) : Option ℚ :=
  (row.entries.find? (fun p => p.1 = c)).map Prod.snd

/-- `data.iloc[i]` with its `.name` set to `data.index[i]`.  The frames the
engine runs on are rectangular, so the positional defaults are never read. -/
def DataFrame.rowAt (df : DataFrame) (i : Nat) : Row :=
  { name := df.index.getD i 0
    entries := df.cols.map (fun p => (p.1, p.2.getD i 0)) }

/-- Association-list store with Python-`dict` semantics: assignment replaces
the first binding of the key or appends a new one. -/
def alistSet {α : Type} (k : String) (v : α) :
    List (String × α) → List (String × α)
  | [] => [(k, v)]
  | p :: rest => if p.1 = k then (k, v) :: rest else p :: alistSet k v rest

/-- `dict` lookup. -/
def alistGet {α : Type} (k : String) : List (String × α) → Option α
  | [] => none
  | p :: rest => if p.1 = k then some p.2 else alistGet k rest

/-- Modelled from the spec: `TransactionCosts.compute_trade_cost` from the
missing file `components/transaction_costs.py` (spec §4.1: contract
`cost(prev_exposure, new_exposure, notional, rate)`; "Cost is
`rate * |new_exposure - prev_exposure| * notional`").  The call sites in
`backtest_engine.py` and `backtester.py` pass `(prev_signal, signal,
notional=equity)` with the rate fixed at construction. -/
def computeTradeCost (rate : ℚ) (prevSignal newSignal : ℤ) (notional : ℚ) : ℚ :=
  rate * |(newSignal : ℚ) - (prevSignal : ℚ)| * notional

/-- Modelled from the spec: the per-strategy ledger `Portfolio` from the
missing file `components/portfolio.py` (spec §4.5).  State is the previous
exposure, the running equity (`cash_equity`, the attribute name used by the
callers), the last stepped date (for the monotone-clock check), and the
append-only equity-point and trade logs. -/
structure Portfolio where
  prevSignal : ℤ
  cashEquity : ℚ
  lastDate : Option Nat
  equityPoints : List (Nat × ℚ × ℚ)
  trades : List (Nat × ℤ × ℤ × ℚ)
deriving DecidableEq

/-- `Portfolio(initial_equity=…, prev_signal=…)`. -/
def Portfolio.init (initialEquity : ℚ) (prevSignal : ℤ) : Portfolio :=
  { prevSignal := prevSignal
    cashEquity := initialEquity
    lastDate := none
    equityPoints := []
    trades := [] }

/-- The spec §4.5 clock guard: a step's date must be strictly greater than the
previous step's. -/
def clockOk (lastDate : Option Nat) (date : Nat) : Bool :=
  match lastDate with
  | none => true
  | some d => d < date

/-- Modelled from the spec: `Portfolio.step(date, target_signal,
period_return, cost)` (spec §4.5): `gross_pnl = prev_exposure * period_return
* equity`; `net_pnl = gross_pnl - cost`; `equity += net_pnl`; append an
equity point `(date, net_pnl, equity)`; append a trade iff the target differs
from the previous exposure; set `prev_exposure` to the target; return
`(net_pnl, equity)`; fail with `StateError` on a non-increasing date. -/
def Portfolio.step (p : Portfolio) (date : Nat) (signal : ℤ)
    (periodReturn cost : ℚ) : Except Err ((ℚ × ℚ) × Portfolio) :=
  if clockOk p.lastDate date then
    let grossPnl : ℚ := (p.prevSignal : ℚ) * periodReturn * p.cashEquity
    let netPnl : ℚ := grossPnl - cost
    let equity : ℚ := p.cashEquity + netPnl
    .ok ((netPnl, equity),
      { prevSignal := signal
        cashEquity := equity
        lastDate := some date
        equityPoints := p.equityPoints ++ [(date, netPnl, equity)]
        trades :=
          if signal ≠ p.prevSignal then
            p.trades ++ [(date, p.prevSignal, signal, cost)]
          else p.trades })
  else .error .stateError

/-- `port.to_equity_df()['Equity']`: the equity column of the ledger. -/
def Portfolio.equitySeries (p : Portfolio) : List ℚ :=
  p.equityPoints.map (fun e => e.2.2)

/-- The strategy contract (`interfaces.BaseStrategy`, held in
`components/strategy_wrapper.py`): `get_name`, `train` (which may mutate the
shared history frame in place, modelled by returning the updated frame) and
`generate_signal` (which can raise on a missing column). -/
structure Strategy where
  name : String
  train : DataFrame → Except Err DataFrame
  generateSignal : Row → Except Err ℤ

/-- The module-level `config.py` values the core reads, as a snapshot of the
mutable module state at the moment a component reads it.  `ASSET_TICKER` and
`HMM_STATES` are the fields the `app.py` Run-Benchmark handler overwrites at
run time; `INITIAL_CAPITAL` is read by `add_strategy` and `TRANSACTION_COST`
by the engine constructor. -/
structure Config where
  assetTicker : String
  hmmStates : Nat
  initialCapital : ℚ
  transactionCost : ℚ

/-- `BacktestEngine` state (`components/backtest_engine.py`): the shared data
frame, the registered strategy list, the per-name portfolio dict, and the
transaction-cost rate captured from `config.TRANSACTION_COST` at
construction.  The source has no run-phase field: nothing records whether
`run()` has started or finished. -/
structure BacktestEngine where
  data : DataFrame
  strategies : List Strategy
  portfolios : List (String × Portfolio)
  tcRate : ℚ

/-- `BacktestEngine.__init__(data)`: reads `config.TRANSACTION_COST` (a
module global, not a constructor argument) for the cost model. -/
def BacktestEngine.create (data : DataFrame) (cfg : Config) : BacktestEngine :=
  { data := data, strategies := [], portfolios := [], tcRate := cfg.transactionCost }

/-- `BacktestEngine.add_strategy(strategy_instance)`: unconditionally appends
the strategy and allocates its portfolio with `config.INITIAL_CAPITAL` (read
from the module global at call time) and `prev_signal=0`.  The source
performs no state check of any kind. -/
def BacktestEngine.addStrategy (cfg : Config) (e : BacktestEngine)
    (s : Strategy) : BacktestEngine :=
  { e with
      strategies := e.strategies ++ [s]
      portfolios := alistSet s.name (Portfolio.init cfg.initialCapital 0) e.portfolios }

/-- The training phase of `run()`: `for strat in self.strategies:
strat.train(self.data)` — every strategy trains on the one shared frame, so
in-place mutations by one `train` are seen by all later ones (modelled by
threading the frame). -/
def trainAll (ss : List Strategy) (df : DataFrame) : Except Err DataFrame :=
  ss.foldlM (fun d s => s.train d) df

/-- One strategy's work inside the simulation loop's inner `for`: generate
the signal from today's row, price the exposure change against the
portfolio's current equity, and step the ledger.  The `(signals, costs)`
history mirrors the source's `signal_history` dict, extended with the
`trade_cost` intermediate so that cumulative cost is observable. -/
def stepOne (tcRate : ℚ) (date : Nat) (ret : ℚ) (row : Row) (s : Strategy)
    (st : List (String × Portfolio) × List (String × (List ℤ × List ℚ))) :
    Except Err (List (String × Portfolio) × List (String × (List ℤ × List ℚ))) :=
  match alistGet s.name st.1, alistGet s.name st.2 with
  | some port, some hc => do
      let signal ← s.generateSignal row
      let cost := computeTradeCost tcRate port.prevSignal signal port.cashEquity
      let r ← port.step date signal ret cost
      .ok (alistSet s.name r.2 st.1,
           alistSet s.name (hc.1 ++ [signal], hc.2 ++ [cost]) st.2)
  | _, _ => .error .keyError

/-- The inner `for strat in self.strategies` of one simulated day, in
registration order. -/
def stepRow (tcRate : ℚ) (date : Nat) (ret : ℚ) (row : Row)
    (strats : List Strategy)
    (st : List (String × Portfolio) × List (String × (List ℤ × List ℚ))) :
    Except Err (List (String × Portfolio) × List (String × (List ℤ × List ℚ))) :=
  strats.foldlM (fun acc s => stepOne tcRate date ret row s acc) st

/-- The per-day outer loop: `for i in range(len(self.data))`, materialising
`(date, row['Log_Ret'], row)` for each position. -/
def simRows (df : DataFrame) (rets : List ℚ) : List (Nat × ℚ × Row) :=
  (List.range df.index.length).map
    (fun i => (df.index.getD i 0, rets.getD i 0, df.rowAt i))

def simLoop (tcRate : ℚ) (strats : List Strategy) :
    List (Nat × ℚ × Row) →
    List (String × Portfolio) × List (String × (List ℤ × List ℚ)) →
    Except Err (List (String × Portfolio) × List (String × (List ℤ × List ℚ)))
  | [], st => .ok st
  | (date, ret, row) :: rest, st => do
      let st' ← stepRow tcRate date ret row strats st
      simLoop tcRate strats rest st'

/-- What `BacktestEngine.run()` produces: the compiled `results` frame, the
engine object as mutated by the run, and the per-strategy signal/cost
histories. -/
structure RunOut where
  results : DataFrame
  final : BacktestEngine
  hist : List (String × (List ℤ × List ℚ))

/-- The results-compilation loop at the end of `run()`:
`results = self.data.copy()`, then per portfolio (dict order) assign the
`<name>_Equity` column from the ledger and the `<name>_Signal` column from
`signal_history[name]` (a missing history entry would be a `KeyError`). -/
def compileResults (hist : List (String × (List ℤ × List ℚ))) :
    List (String × Portfolio) → DataFrame → Except Err DataFrame
  | [], df => .ok df
  | p :: rest, df =>
      match alistGet p.1 hist with
      | some hc =>
          compileResults hist rest
            ((df.setCol (p.1 ++ "_Equity") p.2.equitySeries).setCol
              (p.1 ++ "_Signal") (hc.1.map (fun z => (z : ℚ))))
      | none => .error .keyError

/-- `BacktestEngine.run()`: train every registered strategy on the shared
frame, simulate day by day (`daily_return = row['Log_Ret']`), then compile
`results` as a copy of the (trained, possibly mutated) data with one
`<name>_Equity` and one `<name>_Signal` column appended per portfolio. -/
def BacktestEngine.run (e : BacktestEngine) : Except Err RunOut := do
  let data ← trainAll e.strategies e.data
  match data.getCol "Log_Ret" with
  | none => .error .keyError
  | some rets => do
      let hist0 := e.strategies.foldl
        (fun h s => alistSet s.name (([] : List ℤ), ([] : List ℚ)) h) []
      let st ← simLoop e.tcRate e.strategies (simRows data rets)
        (e.portfolios, hist0)
      let results ← compileResults st.2 st.1 data
      .ok { results := results
            final := { e with data := data, portfolios := st.1 }
            hist := st.2 }

/-- The setup performed by `main.py` and the `app.py` Run-Benchmark handler:
construct the engine on the data and register the strategies in order. -/
def benchSetup (data : DataFrame) (ss : List Strategy) (cfg : Config) : BacktestEngine :=
  ss.foldl (BacktestEngine.addStrategy cfg) (BacktestEngine.create data cfg)

/-- The float values flowing through the pandas RSI pipeline of
`MeanReversionStrategy.train`: a rational, NaN, or +inf (the quantities are
sums/quotients of non-negative gains and losses, so -inf never arises). -/
inductive FVal where
  | nan
  | inf
  | num (q : ℚ)
deriving DecidableEq

/-- IEEE division as exercised by `rs = gain / loss` and `100 / (1 + rs)`
on the non-negative operands of the pipeline: `x/0` is NaN for `x = 0` and
+inf otherwise; finite/`+inf` is `0`; NaN propagates. -/
def FVal.fdiv : FVal → FVal → FVal
  | .nan, _ => .nan
  | _, .nan => .nan
  | .inf, .inf => .nan
  | .inf, .num _ => .inf
  | .num _, .inf => .num 0
  | .num a, .num b => if b = 0 then (if a = 0 then .nan else .inf) else .num (a / b)

/-- IEEE addition on the pipeline's non-negative operands. -/
def FVal.fadd : FVal → FVal → FVal
  | .nan, _ => .nan
  | _, .nan => .nan
  | .inf, _ => .inf
  | _, .inf => .inf
  | .num a, .num b => .num (a + b)

/-- IEEE subtraction as exercised by `100 - 100/(1+rs)`; the subtrahend there
is never +inf (`100/x` is finite or NaN), so the `inf` branches are inert. -/
def FVal.fsub : FVal → FVal → FVal
  | .nan, _ => .nan
  | _, .nan => .nan
  | .inf, _ => .inf
  | .num _, .inf => .nan
  | .num a, .num b => .num (a - b)

def FVal.ofOpt : Option ℚ → FVal
  | none => .nan
  | some q => .num q

/-- `history['Close'].diff()`: NaN at position 0, then successive
differences. -/
def deltaList (close : List ℚ) : List (Option ℚ) :=
  none :: ((close.drop 1).zipWith (fun a b => some (a - b)) close)

/-- `delta.where(delta > 0, 0)`: keep positive moves, replace the rest by 0.
The position-0 NaN compares false under `NaN > 0` and becomes 0. -/
def gainsList (close : List ℚ) : List ℚ :=
  (deltaList close).map (fun d =>
    match d with
    | none => 0
    | some x => if 0 < x then x else 0)

/-- `(-delta.where(delta < 0, 0))`: the magnitude of negative moves. -/
def lossesList (close : List ℚ) : List ℚ :=
  (deltaList close).map (fun d =>
    match d with
    | none => 0
    | some x => if x < 0 then -x else 0)

/-- `series.rolling(window=w).mean()` with the default
`min_periods = window`: NaN until a full window is available. -/
def rollingMean (w : Nat) (xs : List ℚ) : List (Option ℚ) :=
  (List.range xs.length).map (fun i =>
    if i + 1 < w then none
    else some (((xs.drop (i + 1 - w)).take w).sum / (w : ℚ)))

/-- The RSI column computed by `MeanReversionStrategy.train` (period 14, the
constructor default): `rs = gain/loss`, `rsi = 100 - 100/(1+rs)`, then
`.fillna(50)`.  `fillna` replaces only NaN; the rsi value is never +inf
(`100/(1+rs)` is finite or NaN), so the `inf` fallback is unreachable. -/
def rsiList (close : List ℚ) : List ℚ :=
  ((rollingMean 14 (gainsList close)).zipWith
    (fun g l =>
      match FVal.fsub (.num 100)
        (FVal.fdiv (.num 100)
          (FVal.fadd (.num 1) (FVal.fdiv (FVal.ofOpt g) (FVal.ofOpt l)))) with
      | .num q => q
      | _ => 50)
    (rollingMean 14 (lossesList close)))

/-- `MeanReversionStrategy.train(history)`
(`user_strategies/temp_strategy.py`): a no-op when `RSI_14` is already
present, otherwise computes the RSI column from `Close` and assigns it into
the history frame in place (hence the returned, mutated frame).  A missing
`Close` column raises (`KeyError`). -/
def mrTrain (df : DataFrame) : Except Err DataFrame :=
  if (df.getCol "RSI_14").isSome then .ok df
  else
    match df.getCol "Close" with
    | none => .error .keyError
    | some close => .ok (df.setCol "RSI_14" (rsiList close))

/-- `MeanReversionStrategy.generate_signal(row)`: `rsi = row.get('RSI_14',
50)`; long below 30, flat above 70, else long iff `rsi < 50`. -/
def mrSignal (row : Row) : Except Err ℤ :=
  let rsi := (row.get "RSI_14").getD 50
  .ok (if rsi < 30 then 1 else if 70 < rsi then 0 else if rsi < 50 then 1 else 0)

/-- The `MeanReversionStrategy()` instance (constructor defaults: period 14,
thresholds 30/70); `get_name()` is the class name. -/
def meanReversion : Strategy :=
  { name := "MeanReversionStrategy", train := mrTrain, generateSignal := mrSignal }

/-- `TrendFollowingStrategy.generate_signal(row)`
(`user_strategies/dummy_strategy.py`): long iff `Close > SMA_200`.  Reading a
missing column raises; the `pd.isna` guard never fires on the NaN-free
frames modelled here. -/
def tfSignal (row : Row) : Except Err ℤ :=
  match row.get "SMA_200", row.get "Close" with
  | some sma, some close => .ok (if sma < close then 1 else 0)
  | _, _ => .error .keyError

/-- The `TrendFollowingStrategy()` instance; its `train` only logs and leaves
the frame untouched. -/
def trendFollowing : Strategy :=
  { name := "TrendFollowingStrategy", train := fun df => .ok df,
    generateSignal := tfSignal }

/-- The state relabelling shared by `VolatilityHMM.fit` and
`VolatilityRegimeDetector.fit_predict`:
`sorted_indices = np.argsort(means)` (a stable sort) followed by
`state_map = {original: new_rank for new_rank, original in
enumerate(sorted_indices)}`.  The rank of internal state `s` under a stable
argsort is the number of states with a strictly smaller mean plus the number
of earlier states with an equal mean. -/
def stateRank (n : Nat) (means : Fin n → ℚ) (s : Fin n) : Nat :=
  (Finset.univ.filter (fun j : Fin n =>
    means j < means s ∨ (means j = means s ∧ j < s))).card

/-- The opaque `hmmlearn.GaussianHMM` estimator, as the deterministic
functions it denotes under the fixed `random_state=42`: the fitted state
means after `model.fit(train)` (`model.means_.flatten()`), the Viterbi path
`model.predict(query)` after that fit, and the single-point
`model.predict([[v]])[0]`. -/
structure HMMModel (n : Nat) where
  meansAfter : List ℚ → Fin n → ℚ
  viterbiAfter : List ℚ → List ℚ → List (Fin n)
  predictOne : List ℚ → ℚ → Fin n

/-- `VolatilityHMM` state (`components/regime_manager.py`): the estimator,
the training series it was last fitted on, the `state_map` dict (`none`
models the initial empty dict), the `is_fitted` flag and the cached
`regime_history` (date ↦ public label, `None` before `fit`). -/
structure VolatilityHMM (n : Nat) where
  model : HMMModel n
  fittedOn : Option (List ℚ)
  stateMap : Option (Fin n → Nat)
  isFitted : Bool
  regimeHistory : Option (List (Nat × Nat))

/-- `VolatilityHMM.__init__`. -/
def VolatilityHMM.mkNew {n : Nat} (m : HMMModel n) : VolatilityHMM n :=
  { model := m, fittedOn := none, stateMap := none, isFitted := false,
    regimeHistory := none }

/-- `VolatilityHMM.fit(data)`: raise `KeyError` (`DataError` in the spec's
taxonomy) when the `Volatility` column is absent; otherwise fit the model,
derive `state_map` from the argsort of the fitted means, precompute the
Viterbi path over the training series, relabel it, and cache it indexed by
date. -/
def VolatilityHMM.fit {n : Nat} (h : VolatilityHMM n) (data : DataFrame) :
    Except Err (VolatilityHMM n) :=
  match data.getCol "Volatility" with
  | none => .error .dataError
  | some vol =>
      let means := h.model.meansAfter vol
      let smap : Fin n → Nat := stateRank n means
      let internal := h.model.viterbiAfter vol vol
      .ok { h with
        fittedOn := some vol
        stateMap := some smap
        isFitted := true
        regimeHistory := some (data.index.zip (internal.map smap)) }

/-- `date in regime_history.index` / `regime_history.loc[date]` on the
(unique, strictly increasing) date index of the cached history. -/
def lookupDate (d : Nat) : List (Nat × Nat) → Option Nat
  | [] => none
  | p :: rest => if p.1 = d then some p.2 else lookupDate d rest

/-- `VolatilityHMM.detect_regime(row)`: `ValueError` (`NotFittedError`)
before `fit`; then the cached label for the row's date, falling back to a
single-point prediction relabelled through `state_map` for out-of-sample
dates.  The two inner `keyError` branches are unreachable after `fit`, which
installs the history, the training series and the map together. -/
def VolatilityHMM.detectRegime {n : Nat} (h : VolatilityHMM n) (row : Row) :
    Except Err Nat :=
  if h.isFitted = false then .error .notFitted
  else
    match h.regimeHistory with
    | none => .error .keyError
    | some hist =>
        match lookupDate row.name hist with
        | some label => .ok label
        | none =>
            match row.get "Volatility", h.fittedOn, h.stateMap with
            | some v, some tr, some smap => .ok (smap (h.model.predictOne tr v))
            | _, _, _ => .error .keyError

/-- `VolatilityHMM.predict_batch(data)`: if no history is cached yet, first
call `self.fit(data)`; then, when `len(data) == len(regime_history)`, return
the cached label sequence as is; otherwise re-predict the data's volatility
column through the fitted model and relabel.  The mutation of `self` by the
implicit `fit` is modelled by returning the updated detector. -/
def VolatilityHMM.predictBatch {n : Nat} (h : VolatilityHMM n)
    (data : DataFrame) : Except Err (VolatilityHMM n × List Nat) := do
  let h' ← match h.regimeHistory with
           | none => h.fit data
           | some _ => .ok h
  match h'.regimeHistory with
  | none => .error .keyError
  | some hist =>
      if data.index.length = hist.length then .ok (h', hist.map Prod.snd)
      else
        match data.getCol "Volatility", h'.fittedOn, h'.stateMap with
        | some vol, some tr, some smap =>
            .ok (h', (h'.model.viterbiAfter tr vol).map smap)
        | _, _, _ => .error .keyError

/-- `VolatilityRegimeDetector.fit_predict(vol_series)`
(`components/regime_detector.py`): fit, argsort the means, relabel the
predicted hidden states — the same relabelling as `VolatilityHMM.fit`,
without the date-indexed cache. -/
def fitPredict {n : Nat} (m : HMMModel n) (vol : List ℚ) : List Nat :=
  let means := m.meansAfter vol
  (m.viterbiAfter vol vol).map (stateRank n means)

/-- Modelled from the spec: `RegimeAwareWrapper.generate_signal(bar)`
(spec §4.4) from the missing class in `components/strategy_wrapper.py`:
obtain `regime = detector.detect_regime(bar)` and `raw =
base.generate_signal(bar)`; return `raw` unchanged if `regime == 0`, else
force `0` — a hard veto. -/
def regimeAwareSignal {n : Nat} (det : VolatilityHMM n)
    (base : Row → Except Err ℤ) (row : Row) : Except Err ℤ := do
  let regime ← det.detectRegime row
  let raw ← base row
  .ok (if regime = 0 then raw else 0)

/-! ## Concrete instances used by witnesses and counterexamples -/

/-- The spec's end-to-end scenario: 3 bars with log returns
`[0.01, -0.02, 0.03]`. -/
def df1 : DataFrame := { index := [0, 1, 2], cols := [("Log_Ret", [1/100, -1/50, 3/100])] }

/-- A user strategy producing the signal sequence `[1, 1, 0]` on `df1`. -/
def sigStrat : Strategy :=
  { name := "S", train := fun df => .ok df,
    generateSignal := fun row => .ok (if row.name ≤ 1 then 1 else 0) }

/-- A second registrable strategy. -/
def sigStrat2 : Strategy :=
  { name := "S2", train := fun df => .ok df,
    generateSignal := fun _ => .ok 1 }

/-- A strategy that always targets exposure 1. -/
def constLong : Strategy :=
  { name := "ConstLong", train := fun df => .ok df,
    generateSignal := fun _ => .ok 1 }

/-- The repository configuration (`config.py` as shipped):
`INITIAL_CAPITAL = 10000.0`, `TRANSACTION_COST = 0.0005`. -/
def cfg1 : Config :=
  { assetTicker := "SPY", hmmStates := 2, initialCapital := 10000,
    transactionCost := 1/2000 }

/-- A concrete 2-state estimator denotation: state means 0 and 1, volatility
split at 1. -/
def mConst : HMMModel 2 :=
  { meansAfter := fun _ i => if i = (0 : Fin 2) then 0 else 1
    viterbiAfter := fun _ q => q.map (fun v => if v ≤ 1 then (0 : Fin 2) else 1)
    predictOne := fun _ v => if v ≤ 1 then (0 : Fin 2) else 1 }

/-- A fitted detector whose cached history labels date 0 with 0 and
date 1 with 1. -/
def h4 : VolatilityHMM 2 :=
  { model := mConst, fittedOn := some [0, 2],
    stateMap := some (fun i => (i : ℕ)), isFitted := true,
    regimeHistory := some [(0, 0), (1, 1)] }

/-- A history whose dates all lie in `h4`'s cache but in reversed order. -/
def d4 : DataFrame := { index := [1, 0], cols := [("Volatility", [5, 5])] }

/-- A freshly constructed (unfitted) detector. -/
def h5 : VolatilityHMM 2 := VolatilityHMM.mkNew mConst

/-- A valid two-bar history with a `Volatility` column. -/
def d5 : DataFrame := { index := [0, 1], cols := [("Volatility", [0, 2])] }

/-- A history lacking the `Volatility` column. -/
def d7 : DataFrame := { index := [0, 1], cols := [("Close", [1, 2])] }

/-- A rectangular frame carrying everything both sample strategies need. -/
def df10 : DataFrame :=
  { index := [0, 1],
    cols := [("Close", [100, 101]), ("Log_Ret", [0, 0]), ("SMA_200", [99, 99])] }

/-! ## Helper lemmas -/

theorem alistGet_alistSet_self {α : Type} (k : String) (v : α)
    (l : List (String × α)) : alistGet k (alistSet k v l) = some v := by
  induction l with
  | nil => simp [alistSet, alistGet]
  | cons p rest ih =>
      by_cases h : p.1 = k
      · simp [alistSet, alistGet, h]
      · simp [alistSet, alistGet, h, ih]

theorem find_setColList_self (c : String) (v : List ℚ)
    (l : List (String × List ℚ)) :
    (setColList c v l).find? (fun p => p.1 = c) = some (c, v) := by
  induction l with
  | nil => simp [setColList]
  | cons p rest ih =>
      by_cases h : p.1 = c
      · simp [setColList, h]
      · simp [setColList, h, ih]

theorem find_setColList_ne (c c' : String) (v : List ℚ)
    (l : List (String × List ℚ)) (h : c ≠ c') :
    (setColList c' v l).find? (fun p => p.1 = c) = l.find? (fun p => p.1 = c) := by
  induction l with
  | nil => simp [setColList, Ne.symm h]
  | cons p rest ih =>
      by_cases hp : p.1 = c'
      · simp [setColList, hp, Ne.symm h]
      · by_cases hc : p.1 = c
        · simp [setColList, hp, hc, h]
        · simp [setColList, hp, hc, ih]

theorem getCol_setCol_self (df : DataFrame) (c : String) (v : List ℚ) :
    (df.setCol c v).getCol c = some v := by
  show ((setColList c v df.cols).find? (fun p => p.1 = c)).map Prod.snd = some v
  rw [find_setColList_self]
  rfl

theorem getCol_setCol_ne (df : DataFrame) (c c' : String) (v : List ℚ)
    (h : c ≠ c') : (df.setCol c' v).getCol c = df.getCol c := by
  show ((setColList c' v df.cols).find? (fun p => p.1 = c)).map Prod.snd
    = (df.cols.find? (fun p => p.1 = c)).map Prod.snd
  rw [find_setColList_ne _ _ _ _ h]

theorem string_append_length (s t : String) :
    (s ++ t).length = s.length + t.length := by
  simp [String.length_append]

/-! ## Claims -/

set_option maxHeartbeats 1000000 in
/-- C1: For every ledger step, the pnl recorded for a date is computed from
the exposure held entering that step (the target signal chosen at the
previous step), never from the signal computed at that same step: the
returned `(net_pnl, equity)` is invariant in the signal argument,
`gross_pnl = prev_exposure * period_return * equity`,
`net_pnl = gross_pnl - cost`, equity increases by `net_pnl`, and the step
returns `(net_pnl, equity)`.  For the concrete run with returns
`[0.01, -0.02, 0.03]`, signals `[1, 1, 0]`, `prev_exposure` starting at 0,
cost rate 0.0005 and initial capital 10000, the equity sequence is
`[9995, 9795.1, 10084.05545]`, whose last value is within 0.01 of
10084.05. -/
theorem c1_pnl_uses_entering_exposure :
    (∀ (p : Portfolio) (date : Nat) (s1 s2 : ℤ) (ret cost : ℚ),
        Except.map Prod.fst (p.step date s1 ret cost)
          = Except.map Prod.fst (p.step date s2 ret cost))
  ∧ (∀ (p : Portfolio) (date : Nat) (sig : ℤ) (ret cost : ℚ)
        (r : ℚ × ℚ) (p' : Portfolio),
        p.step date sig ret cost = .ok (r, p') →
        r.1 = (p.prevSignal : ℚ) * ret * p.cashEquity - cost
        ∧ r.2 = p.cashEquity + r.1
        ∧ p'.cashEquity = r.2 ∧ p'.prevSignal = sig
        ∧ p'.equityPoints = p.equityPoints ++ [(date, r.1, r.2)])
  ∧ Except.map (fun r => r.final.portfolios.map
        (fun q : String × Portfolio => q.2.equitySeries))
      ((benchSetup df1 [sigStrat] cfg1).run)
      = .ok [[9995, 97951/10, 201681109/20000]]
  ∧ |(201681109 : ℚ)/20000 - 10084.05| < 1/100 := by
  refine ⟨?_, ?_, ?_, ?_⟩
  · intro p date s1 s2 ret cost
    by_cases h : clockOk p.lastDate date <;> simp [Portfolio.step, h, Except.map]
  · intro p date sig ret cost r p' h
    by_cases hc : clockOk p.lastDate date
    · simp only [Portfolio.step, if_pos hc, Except.ok.injEq, Prod.mk.injEq] at h
      obtain ⟨h1, h3⟩ := h
      subst h1 h3
      exact ⟨rfl, rfl, rfl, rfl, rfl⟩
    · simp [Portfolio.step, if_neg hc] at h
  · norm_num [benchSetup, BacktestEngine.run, BacktestEngine.create,
      BacktestEngine.addStrategy, trainAll, simRows, simLoop, stepRow, stepOne,
      alistGet, alistSet, Portfolio.init, Portfolio.step, clockOk,
      computeTradeCost, DataFrame.getCol, DataFrame.rowAt, DataFrame.setCol,
      setColList, Portfolio.equitySeries, compileResults, df1, sigStrat, cfg1, List.find?,
      List.foldlM, Except.map, Except.bind, bind, pure, Except.pure,
      Except.instMonad, List.range, List.range.loop]
  · rw [abs_lt]
    constructor <;> norm_num

/-- The ledger state after the first step of the C1 scenario. -/
def c1p' : Portfolio :=
  { prevSignal := 1, cashEquity := 9995, lastDate := some 0,
    equityPoints := [(0, -5, 9995)], trades := [(0, 0, 1, 5)] }

/-- C1 witness: the step law applied to the scenario's first step
(prior exposure 0, new signal 1, cost 5 on capital 10000). -/
theorem c1_pnl_uses_entering_exposure_witness :
    ((Portfolio.init 10000 0).step 0 1 (1/100) 5 = .ok ((-5, 9995), c1p'))
  ∧ (((-5 : ℚ), (9995 : ℚ)).1
        = ((Portfolio.init 10000 0).prevSignal : ℚ) * (1/100)
            * (Portfolio.init 10000 0).cashEquity - 5
     ∧ ((-5 : ℚ), (9995 : ℚ)).2
        = (Portfolio.init 10000 0).cashEquity + ((-5 : ℚ), (9995 : ℚ)).1
     ∧ c1p'.cashEquity = ((-5 : ℚ), (9995 : ℚ)).2
     ∧ c1p'.prevSignal = 1
     ∧ c1p'.equityPoints = (Portfolio.init 10000 0).equityPoints
          ++ [(0, ((-5 : ℚ), (9995 : ℚ)).1, ((-5 : ℚ), (9995 : ℚ)).2)]) :=
  have hstep : (Portfolio.init 10000 0).step 0 1 (1/100) 5
      = .ok ((-5, 9995), c1p') := by
    norm_num [Portfolio.step, Portfolio.init, clockOk, c1p']
  ⟨hstep, c1_pnl_uses_entering_exposure.2.1
      (Portfolio.init 10000 0) 0 1 (1/100) 5 (-5, 9995) c1p' hstep⟩

theorem computeTradeCost_self (rate : ℚ) (z : ℤ) (notional : ℚ) :
    computeTradeCost rate z z notional = 0 := by
  simp [computeTradeCost]

/-- In the engine's simulation loop with a single registered strategy, if the
generated target signal always equals the portfolio's entering exposure then
every `trade_cost` charged along the run is zero. -/
theorem simLoop_zero_cost_aux (rate : ℚ) (s : Strategy) :
    ∀ (rows : List (Nat × ℚ × Row)) (p : Portfolio) (ss : List ℤ) (cs : List ℚ)
      (st' : List (String × Portfolio) × List (String × (List ℤ × List ℚ))),
    (∀ r ∈ rows, s.generateSignal r.2.2 = .ok p.prevSignal) →
    simLoop rate [s] rows ([(s.name, p)], [(s.name, (ss, cs))]) = .ok st' →
    ∃ ss' cs', st'.2 = [(s.name, (ss', cs'))] ∧ ∀ c ∈ cs', c ∈ cs ∨ c = 0 := by
  intro rows
  induction rows with
  | nil =>
      intro p ss cs st' hsig h
      simp only [simLoop, Except.ok.injEq] at h
      subst h
      exact ⟨ss, cs, rfl, fun c hc => Or.inl hc⟩
  | cons head rest ih =>
      obtain ⟨d, ret, row⟩ := head
      intro p ss cs st' hsig h
      have hhead : s.generateSignal row = .ok p.prevSignal :=
        hsig (d, ret, row) (by simp)
      simp only [simLoop, stepRow, List.foldlM, stepOne, alistGet,
        decide_eq_true_eq, if_pos rfl, if_true, hhead, Except.bind, bind, pure,
        Except.pure] at h
      simp only [computeTradeCost_self] at h
      cases hstep : p.step d p.prevSignal ret 0 with
      | error e =>
          rw [hstep] at h
          simp at h
      | ok val =>
          rw [hstep] at h
          simp only [alistSet, if_pos rfl] at h
          have hprev : val.2.prevSignal = p.prevSignal := by
            simp only [Portfolio.step] at hstep
            by_cases hc : clockOk p.lastDate d
            · rw [if_pos hc] at hstep
              cases hstep
              rfl
            · rw [if_neg hc] at hstep
              cases hstep
          obtain ⟨ss', cs', hst, hcs⟩ :=
            ih val.2 (ss ++ [p.prevSignal]) (cs ++ [0]) st'
              (fun r hr => by
                rw [hprev]
                exact hsig r (List.mem_cons_of_mem _ hr)) h
          refine ⟨ss', cs', hst, fun c hc => ?_⟩
          rcases hcs c hc with hin | hz
          · rcases List.mem_append.mp hin with h1 | h2
            · exact Or.inl h1
            · simp at h2
              exact Or.inr h2
          · exact Or.inr hz

/-- C6: For every previous exposure, new exposure, notional and rate, the
transaction cost equals `rate * |new_exposure - prev_exposure| * notional`;
when the new exposure equals the previous one the cost is zero; and an
engine simulation in which the generated target signal equals the
portfolio's entering exposure at every step charges exactly zero cumulative
cost (every recorded `trade_cost` is 0, so their sum is 0). -/
theorem c6_cost_formula_and_zero_cost_run :
    (∀ (rate : ℚ) (prev next : ℤ) (notional : ℚ),
        computeTradeCost rate prev next notional
          = rate * |(next : ℚ) - (prev : ℚ)| * notional)
  ∧ (∀ (rate : ℚ) (prev : ℤ) (notional : ℚ),
        computeTradeCost rate prev prev notional = 0)
  ∧ (∀ (rate : ℚ) (s : Strategy) (rows : List (Nat × ℚ × Row)) (p : Portfolio)
        (st' : List (String × Portfolio) × List (String × (List ℤ × List ℚ))),
        (∀ r ∈ rows, s.generateSignal r.2.2 = .ok p.prevSignal) →
        simLoop rate [s] rows ([(s.name, p)], [(s.name, ([], []))]) = .ok st' →
        ∃ ss' cs', st'.2 = [(s.name, (ss', cs'))]
          ∧ cs'.sum = 0 ∧ ∀ c ∈ cs', c = 0) := by
  refine ⟨fun _ _ _ _ => rfl, computeTradeCost_self, ?_⟩
  intro rate s rows p st' hsig h
  obtain ⟨ss', cs', hst, hcs⟩ := simLoop_zero_cost_aux rate s rows p [] [] st' hsig h
  have hz : ∀ c ∈ cs', c = 0 := by
    intro c hc
    rcases hcs c hc with hin | hzero
    · simp at hin
    · exact hzero
  exact ⟨ss', cs', hst, List.sum_eq_zero hz, hz⟩

/-- A two-day trace for the zero-cost run. -/
def rows6 : List (Nat × ℚ × Row) := [(0, 1/100, ⟨0, []⟩), (1, -1/50, ⟨1, []⟩)]

/-- A ledger entering the run already long one unit. -/
def p6 : Portfolio := Portfolio.init 100 1

/-- The state the zero-cost run ends in. -/
def st6 : List (String × Portfolio) × List (String × (List ℤ × List ℚ)) :=
  ([("ConstLong",
      { prevSignal := 1, cashEquity := 4949/50, lastDate := some 1,
        equityPoints := [(0, 1, 101), (1, -101/50, 4949/50)], trades := [] })],
   [("ConstLong", ([1, 1], [0, 0]))])

/-- C6 witness: the always-long strategy holding its entering exposure pays
zero cost on both days. -/
theorem c6_cost_formula_and_zero_cost_run_witness :
    (∀ r ∈ rows6, constLong.generateSignal r.2.2 = .ok p6.prevSignal)
  ∧ simLoop (1/2000) [constLong] rows6
      ([(constLong.name, p6)], [(constLong.name, ([], []))]) = .ok st6
  ∧ (∃ ss' cs', st6.2 = [(constLong.name, (ss', cs'))]
      ∧ cs'.sum = 0 ∧ ∀ c ∈ cs', c = 0) :=
  have hsig : ∀ r ∈ rows6, constLong.generateSignal r.2.2 = .ok p6.prevSignal := by
    intro r hr
    simp [constLong, p6, Portfolio.init]
  have hrun : simLoop (1/2000) [constLong] rows6
      ([(constLong.name, p6)], [(constLong.name, ([], []))]) = .ok st6 := by
    norm_num [simLoop, stepRow, stepOne, alistGet, alistSet, List.foldlM,
      Portfolio.step, Portfolio.init, clockOk, computeTradeCost, rows6, p6,
      constLong, st6, Except.bind, bind, pure, Except.pure]
  ⟨hsig, hrun, c6_cost_formula_and_zero_cost_run.2.2 (1/2000) constLong rows6
      p6 st6 hsig hrun⟩

/-- C7: For every input table lacking the required volatility column, the
detector's `fit` fails with `DataError` (the `KeyError` raised before any
state is assigned, so no fitted detector is produced and the caller's
detector is unchanged). -/
theorem c7_fit_missing_volatility_fails :
    ∀ (n : Nat) (h : VolatilityHMM n) (data : DataFrame),
    data.getCol "Volatility" = none →
    h.fit data = .error .dataError ∧ ∀ h', h.fit data ≠ .ok h' := by
  intro n h data hcol
  constructor
  · simp [VolatilityHMM.fit, hcol]
  · intro h' hok
    simp [VolatilityHMM.fit, hcol] at hok

/-- C7 witness: fitting on a frame with only a `Close` column raises
`DataError`. -/
theorem c7_fit_missing_volatility_fails_witness :
    d7.getCol "Volatility" = none ∧ h5.fit d7 = .error .dataError :=
  ⟨rfl, (c7_fit_missing_volatility_fails 2 h5 d7 rfl).1⟩

/-- C2: After `fit`, the public labels are the precomputed internal-state
path relabelled by `stateRank` of the fitted means (and
`VolatilityRegimeDetector.fit_predict` relabels identically); the internal
state with the strictly lowest mean volatility is always mapped to label 0;
and for distinct fitted means the derived labels are invariant under any
permutation of the classifier's internal state ids. -/
theorem c2_labels_rank_ordered_by_mean :
    (∀ (n : Nat) (h : VolatilityHMM n) (data : DataFrame) (vol : List ℚ),
        data.getCol "Volatility" = some vol →
        h.fit data = .ok { h with
          fittedOn := some vol
          stateMap := some (stateRank n (h.model.meansAfter vol))
          isFitted := true
          regimeHistory := some (data.index.zip
            ((h.model.viterbiAfter vol vol).map
              (stateRank n (h.model.meansAfter vol)))) }
        ∧ fitPredict h.model vol
          = (h.model.viterbiAfter vol vol).map
              (stateRank n (h.model.meansAfter vol)))
  ∧ (∀ (n : Nat) (means : Fin n → ℚ) (s : Fin n),
        (∀ j, j ≠ s → means s < means j) → stateRank n means s = 0)
  ∧ (∀ (n : Nat) (means : Fin n → ℚ) (σ : Equiv.Perm (Fin n))
        (st : List (Fin n)),
        Function.Injective means →
        (st.map σ).map (stateRank n (means ∘ σ.symm))
          = st.map (stateRank n means)) := by
  refine ⟨?_, ?_, ?_⟩
  · intro n h data vol hcol
    constructor
    · simp [VolatilityHMM.fit, hcol]
    · rfl
  · intro n means s hmin
    have hempty : Finset.univ.filter (fun j : Fin n =>
        means j < means s ∨ (means j = means s ∧ j < s)) = ∅ := by
      apply Finset.filter_eq_empty_iff.mpr
      intro j _
      rintro (hlt | ⟨heq, hjs⟩)
      · rcases eq_or_ne j s with rfl | hne
        · exact lt_irrefl _ hlt
        · exact absurd hlt (not_lt.mpr (le_of_lt (hmin j hne)))
      · rcases eq_or_ne j s with rfl | hne
        · exact lt_irrefl j hjs
        · exact absurd (heq ▸ hmin j hne) (lt_irrefl _)
    rw [stateRank, hempty, Finset.card_empty]
  · intro n means σ st hinj
    rw [List.map_map]
    apply List.map_congr_left
    intro i _
    show stateRank n (means ∘ σ.symm) (σ i) = stateRank n means i
    have h1 : Finset.univ.filter (fun j : Fin n =>
          (means ∘ σ.symm) j < (means ∘ σ.symm) (σ i)
          ∨ ((means ∘ σ.symm) j = (means ∘ σ.symm) (σ i) ∧ j < σ i))
        = Finset.univ.filter (fun j : Fin n => means (σ.symm j) < means i) := by
      ext j
      simp only [Finset.mem_filter, Finset.mem_univ, true_and, Function.comp,
        Equiv.symm_apply_apply]
      constructor
      · rintro (hlt | ⟨heq, hjs⟩)
        · exact hlt
        · have : σ.symm j = i := hinj heq
          have : j = σ i := by
            rw [← this, Equiv.apply_symm_apply]
          exact absurd hjs (by rw [this]; exact lt_irrefl _)
      · intro hlt
        exact Or.inl hlt
    have h2 : Finset.univ.filter (fun j : Fin n =>
          means j < means i ∨ (means j = means i ∧ j < i))
        = Finset.univ.filter (fun j : Fin n => means j < means i) := by
      ext j
      simp only [Finset.mem_filter, Finset.mem_univ, true_and]
      constructor
      · rintro (hlt | ⟨heq, hjs⟩)
        · exact hlt
        · have : j = i := hinj heq
          exact absurd hjs (by rw [this]; exact lt_irrefl _)
      · intro hlt
        exact Or.inl hlt
    have h3 : Finset.univ.filter (fun j : Fin n => means (σ.symm j) < means i)
        = (Finset.univ.filter (fun k : Fin n => means k < means i)).map
            σ.toEmbedding := by
      ext j
      simp only [Finset.mem_filter, Finset.mem_univ, true_and, Finset.mem_map,
        Equiv.coe_toEmbedding]
      constructor
      · intro hj
        exact ⟨σ.symm j, hj, Equiv.apply_symm_apply σ j⟩
      · rintro ⟨k, hk, rfl⟩
        simpa [Equiv.symm_apply_apply] using hk
    rw [stateRank, stateRank, h1, h2, h3, Finset.card_map]

/-- The fitted means used by the C2 witness: state 0 has the strictly lower
mean volatility. -/
def m2 : Fin 2 → ℚ := fun i => if i = 0 then 0 else 1

/-- C2 witness: fitting the fresh detector on the two-bar history labels it
through `stateRank`; the lowest-mean state gets label 0; and swapping the
two internal ids leaves the labels of the path `[0, 1]` unchanged. -/
theorem c2_labels_rank_ordered_by_mean_witness :
    (d5.getCol "Volatility" = some [0, 2]
      ∧ h5.fit d5 = .ok { h5 with
          fittedOn := some [0, 2]
          stateMap := some (stateRank 2 (h5.model.meansAfter [0, 2]))
          isFitted := true
          regimeHistory := some (d5.index.zip
            ((h5.model.viterbiAfter [0, 2] [0, 2]).map
              (stateRank 2 (h5.model.meansAfter [0, 2])))) })
  ∧ ((∀ j : Fin 2, j ≠ 0 → m2 0 < m2 j) ∧ stateRank 2 m2 0 = 0)
  ∧ (Function.Injective m2
      ∧ (([0, 1] : List (Fin 2)).map (Equiv.swap 0 1)).map
          (stateRank 2 (m2 ∘ (Equiv.swap 0 1).symm))
        = ([0, 1] : List (Fin 2)).map (stateRank 2 m2)) :=
  have hmin : ∀ j : Fin 2, j ≠ 0 → m2 0 < m2 j := by
    intro j hj
    fin_cases j
    · exact absurd rfl hj
    · norm_num [m2]
  have hinj : Function.Injective m2 := by
    intro a b hab
    fin_cases a <;> fin_cases b <;> simp_all [m2]
  ⟨⟨rfl, (c2_labels_rank_ordered_by_mean.1 2 h5 d5 [0, 2] rfl).1⟩,
   ⟨hmin, c2_labels_rank_ordered_by_mean.2.1 2 m2 0 hmin⟩,
   ⟨hinj, c2_labels_rank_ordered_by_mean.2.2 2 m2 (Equiv.swap 0 1) [0, 1] hinj⟩⟩

/-- C3: The regime-aware wrapped strategy returns the base strategy's raw
signal unchanged when the detected regime is 0, and 0 (flat) for any other
regime — a hard veto; hence with all-zero regime labels the wrapped signal
series equals the base series (for any base strategy, in particular a
constant-always-long one), and with all-regime-1 labels the constant-long
base yields an all-zero series. -/
theorem c3_wrapper_hard_veto :
    (∀ (n : Nat) (det : VolatilityHMM n) (base : Row → Except Err ℤ)
        (row : Row) (r : Nat) (raw : ℤ),
        det.detectRegime row = .ok r → base row = .ok raw →
        regimeAwareSignal det base row = .ok (if r = 0 then raw else 0))
  ∧ (∀ (n : Nat) (det : VolatilityHMM n) (base : Row → Except Err ℤ)
        (rows : List Row),
        (∀ row ∈ rows, det.detectRegime row = .ok 0) →
        rows.map (regimeAwareSignal det base) = rows.map base)
  ∧ (∀ (n : Nat) (det : VolatilityHMM n) (rows : List Row),
        (∀ row ∈ rows, det.detectRegime row = .ok 1) →
        rows.map (regimeAwareSignal det (fun _ => .ok 1))
          = rows.map (fun _ => .ok (0 : ℤ))) := by
  refine ⟨?_, ?_, ?_⟩
  · intro n det base row r raw hdet hbase
    simp [regimeAwareSignal, hdet, hbase, Except.bind, bind, pure, Except.pure]
  · intro n det base rows hdet
    apply List.map_congr_left
    intro row hrow
    have h0 := hdet row hrow
    simp only [regimeAwareSignal, h0, Except.bind, bind, pure, Except.pure]
    cases base row <;> simp [Except.bind, bind, pure, Except.pure]
  · intro n det rows hdet
    apply List.map_congr_left
    intro row hrow
    have h1 := hdet row hrow
    simp [regimeAwareSignal, h1, Except.bind, bind, pure, Except.pure]

/-- C3 witness: on `h4`'s cache, the wrapper passes the long signal through
on the calm date 0 and vetoes it on the volatile date 1. -/
theorem c3_wrapper_hard_veto_witness :
    (h4.detectRegime ⟨0, []⟩ = .ok 0 ∧ h4.detectRegime ⟨1, []⟩ = .ok 1)
  ∧ regimeAwareSignal h4 (fun _ => .ok 1) ⟨0, []⟩
      = .ok (if 0 = 0 then (1 : ℤ) else 0)
  ∧ [(⟨0, []⟩ : Row)].map (regimeAwareSignal h4 (fun _ => .ok 1))
      = [(⟨0, []⟩ : Row)].map (fun _ => .ok (1 : ℤ))
  ∧ [(⟨1, []⟩ : Row)].map (regimeAwareSignal h4 (fun _ => .ok 1))
      = [(⟨1, []⟩ : Row)].map (fun _ => .ok (0 : ℤ)) :=
  ⟨⟨rfl, rfl⟩,
   c3_wrapper_hard_veto.1 2 h4 (fun _ => .ok 1) ⟨0, []⟩ 0 1 rfl rfl,
   c3_wrapper_hard_veto.2.1 2 h4 (fun _ => .ok 1) [⟨0, []⟩]
     (by rintro row hrow; simp only [List.mem_singleton] at hrow; subst hrow; rfl),
   c3_wrapper_hard_veto.2.2 2 h4 [⟨1, []⟩]
     (by rintro row hrow; simp only [List.mem_singleton] at hrow; subst hrow; rfl)⟩

/-- A successful `fit` installs the training series, the state map, the
fitted flag and the cached label history together. -/
theorem fit_ok_fields {n : Nat} (h : VolatilityHMM n) (data : DataFrame)
    (h' : VolatilityHMM n) (hok : h.fit data = .ok h') :
    ∃ vol, data.getCol "Volatility" = some vol
      ∧ h' = { h with
          fittedOn := some vol
          stateMap := some (stateRank n (h.model.meansAfter vol))
          isFitted := true
          regimeHistory := some (data.index.zip
            ((h.model.viterbiAfter vol vol).map
              (stateRank n (h.model.meansAfter vol)))) } := by
  cases hcol : data.getCol "Volatility" with
  | none => simp [VolatilityHMM.fit, hcol] at hok
  | some vol =>
      simp only [VolatilityHMM.fit, hcol, Except.ok.injEq] at hok
      exact ⟨vol, rfl, hok.symm⟩

/-- C5 counterexample: on the fresh, unfitted detector `h5`,
`detect_regime` does raise `NotFittedError`, but `predict_batch` does not:
it silently fits on the given history `d5` and returns the label sequence
`[0, 1]` — so "calling any detection method before fit fails with
NotFittedError and does not produce a label" is false at this input. -/
theorem c5_counterexample_predict_batch_before_fit :
    h5.isFitted = false
  ∧ h5.detectRegime ⟨0, [("Volatility", 1)]⟩ = .error .notFitted
  ∧ Except.map Prod.snd (h5.predictBatch d5) = .ok [0, 1]
  ∧ Except.map Prod.snd (h5.predictBatch d5) ≠ .error .notFitted :=
  ⟨rfl, rfl, rfl, by
    rw [show Except.map Prod.snd (h5.predictBatch d5) = .ok ([0, 1] : List Nat) from rfl]
    simp⟩

/-- C5 (amended): on a detector on which `fit` has not been called
(`is_fitted` false, no cached history), `detect_regime` fails with
`NotFittedError`; `predict_batch`, however, does not fail with
`NotFittedError`: it first fits the detector on the given history and then
behaves as `predict_batch` on the fitted detector, producing a label
sequence whenever that implicit fit succeeds. -/
theorem c5_unfitted_detector_behaviour :
    ∀ (n : Nat) (h : VolatilityHMM n) (data : DataFrame) (row : Row),
    h.isFitted = false → h.regimeHistory = none →
    h.detectRegime row = .error .notFitted
  ∧ h.predictBatch data = (h.fit data).bind (fun h' => h'.predictBatch data)
  ∧ (∀ h', h.fit data = .ok h' →
      ∃ labels, h.predictBatch data = .ok (h', labels)) := by
  intro n h data row hfit hhist
  have hbind : h.predictBatch data
      = (h.fit data).bind (fun h' => h'.predictBatch data) := by
    simp only [VolatilityHMM.predictBatch, hhist, Except.bind, bind]
    cases hf : h.fit data with
    | error e => rfl
    | ok h' =>
        obtain ⟨vol, hcol, rfl⟩ := fit_ok_fields h data h' hf
        rfl
  refine ⟨by simp [VolatilityHMM.detectRegime, hfit], hbind, ?_⟩
  intro h' hf
  rw [hbind, hf]
  obtain ⟨vol, hcol, rfl⟩ := fit_ok_fields h data h' hf
  simp only [VolatilityHMM.predictBatch, Except.bind, bind]
  by_cases hlen : data.index.length
      = (data.index.zip ((h.model.viterbiAfter vol vol).map
          (stateRank n (h.model.meansAfter vol)))).length
  · rw [if_pos hlen]
    exact ⟨_, rfl⟩
  · rw [if_neg hlen, hcol]
    exact ⟨_, rfl⟩

/-- C5 witness: the amended behaviour at the fresh detector and the two-bar
history. -/
theorem c5_unfitted_detector_behaviour_witness :
    (h5.isFitted = false ∧ h5.regimeHistory = none)
  ∧ h5.detectRegime ⟨5, []⟩ = .error .notFitted
  ∧ h5.predictBatch d5 = (h5.fit d5).bind (fun h' => h'.predictBatch d5) :=
  ⟨⟨rfl, rfl⟩,
   (c5_unfitted_detector_behaviour 2 h5 d5 ⟨5, []⟩ rfl rfl).1,
   (c5_unfitted_detector_behaviour 2 h5 d5 ⟨5, []⟩ rfl rfl).2.1⟩

/-- On a duplicate-free date index, looking a date up in the cached history
returns the label stored at that date's position. -/
theorem lookupDate_of_nodup :
    ∀ (hist : List (Nat × Nat)), (hist.map Prod.fst).Nodup →
    ∀ (i : Nat) (hi : i < hist.length),
    lookupDate (hist[i].1) hist = some (hist[i].2) := by
  intro hist
  induction hist with
  | nil =>
      intro _ i hi
      simp at hi
  | cons a t ih =>
      intro hnd i hi
      rw [List.map_cons, List.nodup_cons] at hnd
      cases i with
      | zero => simp [lookupDate]
      | succ j =>
          have hj : j < t.length := by simpa using hi
          have hmem : t[j].1 ∈ t.map Prod.fst :=
            List.mem_map_of_mem _ (t.getElem_mem hj)
          have hne : ¬ a.1 = t[j].1 := fun hcontra => hnd.1 (hcontra ▸ hmem)
          simp only [List.getElem_cons_succ, lookupDate, if_neg hne]
          exact ih hnd.2 j hj

/-- C4 counterexample: `h4` is fitted and every date of `d4` (the cached
dates in reversed order) is in the precomputed cache, yet `predict_batch`
returns the cache sequence `[0, 1]` as is (it only compares lengths) while
row-by-row `detect_regime` returns `[1, 0]`. -/
theorem c4_counterexample_reordered_history :
    h4.isFitted = true
  ∧ h4.regimeHistory = some [(0, 0), (1, 1)]
  ∧ lookupDate 1 [(0, 0), (1, 1)] = some 1
  ∧ lookupDate 0 [(0, 0), (1, 1)] = some 0
  ∧ Except.map Prod.snd (h4.predictBatch d4) = .ok [0, 1]
  ∧ h4.detectRegime (d4.rowAt 0) = .ok 1
  ∧ h4.detectRegime (d4.rowAt 1) = .ok 0
  ∧ ([0, 1] : List Nat) ≠ [1, 0] :=
  ⟨rfl, rfl, rfl, rfl, rfl, rfl, rfl, by decide⟩

/-- C4 (amended): for every fitted detector and every history whose dates
are exactly the cached dates in the cache's order (in particular the
training history itself), `predict_batch` produces the same labels as
calling `detect_regime` row by row. -/
theorem c4_predict_batch_matches_cache_order :
    ∀ (n : Nat) (h : VolatilityHMM n) (hist : List (Nat × Nat))
      (data : DataFrame),
    h.isFitted = true →
    h.regimeHistory = some hist →
    data.index = hist.map Prod.fst →
    (hist.map Prod.fst).Nodup →
    h.predictBatch data = .ok (h, hist.map Prod.snd)
  ∧ ∀ (i : Nat) (hi : i < hist.length),
      h.detectRegime (data.rowAt i) = .ok (hist[i].2) := by
  intro n h hist data hfit hhist hidx hnd
  constructor
  · have hlen : data.index.length = hist.length := by
      rw [hidx, List.length_map]
    simp only [VolatilityHMM.predictBatch, hhist, Except.bind, bind, pure,
      Except.pure, if_pos hlen]
  · intro i hi
    have hname : (data.rowAt i).name = hist[i].1 := by
      show data.index.getD i 0 = hist[i].1
      rw [hidx, List.getD_eq_getElem _ _ (by simpa using hi)]
      simp
    simp only [VolatilityHMM.detectRegime, hfit, hhist, hname,
      lookupDate_of_nodup hist hnd i hi]
    simp

/-- The cached dates in cache order. -/
def d4b : DataFrame := { index := [0, 1], cols := [("Volatility", [5, 5])] }

/-- C4 witness: on the history whose dates equal the cache's dates in
order, the batch and per-row paths agree. -/
theorem c4_predict_batch_matches_cache_order_witness :
    (h4.isFitted = true ∧ h4.regimeHistory = some [(0, 0), (1, 1)]
      ∧ d4b.index = ([(0, 0), (1, 1)] : List (Nat × Nat)).map Prod.fst
      ∧ (([(0, 0), (1, 1)] : List (Nat × Nat)).map Prod.fst).Nodup)
  ∧ h4.predictBatch d4b
      = .ok (h4, ([(0, 0), (1, 1)] : List (Nat × Nat)).map Prod.snd)
  ∧ h4.detectRegime (d4b.rowAt 0)
      = .ok (([(0, 0), (1, 1)] : List (Nat × Nat))[0].2) :=
  have hnd : (([(0, 0), (1, 1)] : List (Nat × Nat)).map Prod.fst).Nodup := by
    decide
  ⟨⟨rfl, rfl, rfl, hnd⟩,
   (c4_predict_batch_matches_cache_order 2 h4 [(0, 0), (1, 1)] d4b rfl rfl rfl
      hnd).1,
   (c4_predict_batch_matches_cache_order 2 h4 [(0, 0), (1, 1)] d4b rfl rfl rfl
      hnd).2 0 (by norm_num)⟩

set_option maxHeartbeats 1000000 in
/-- C8 counterexample: the engine has no run-state machine.  After a
complete `run()` on the concrete engine, `add_strategy` is not rejected: it
registers the new strategy (the strategy list grows to 2) and allocates its
ledger — contradicting "once run() has begun, registering a further
strategy is rejected". -/
theorem c8_counterexample_add_after_run :
    Except.map (fun r =>
        ((BacktestEngine.addStrategy cfg1 r.final sigStrat2).strategies.length,
         alistGet "S2"
           (BacktestEngine.addStrategy cfg1 r.final sigStrat2).portfolios))
      ((benchSetup df1 [sigStrat] cfg1).run)
      = .ok (2, some (Portfolio.init 10000 0)) := by
  norm_num [benchSetup, BacktestEngine.run, BacktestEngine.create,
    BacktestEngine.addStrategy, trainAll, simRows, simLoop, stepRow, stepOne,
    alistGet, alistSet, Portfolio.init, Portfolio.step, clockOk,
    computeTradeCost, DataFrame.getCol, DataFrame.rowAt, DataFrame.setCol,
    setColList, compileResults, df1, sigStrat, sigStrat2, cfg1, List.find?,
    List.foldlM, Except.map, Except.bind, bind, pure, Except.pure,
    Except.instMonad, List.range, List.range.loop]
  decide

/-- C8 (amended): the source enforces no Unstarted/Training/Simulating/
Completed state machine — `add_strategy` is accepted unconditionally, in
every engine state (including after `run()`); the registration part of the
claim holds: it appends the strategy and allocates its ledger with the
configured initial capital and `prev_exposure = 0`. -/
theorem c8_add_strategy_unguarded :
    ∀ (cfg : Config) (e : BacktestEngine) (s : Strategy),
    BacktestEngine.addStrategy cfg e s
      = { e with
            strategies := e.strategies ++ [s]
            portfolios := alistSet s.name
              (Portfolio.init cfg.initialCapital 0) e.portfolios }
  ∧ alistGet s.name (BacktestEngine.addStrategy cfg e s).portfolios
      = some { prevSignal := 0, cashEquity := cfg.initialCapital,
               lastDate := none, equityPoints := [], trades := [] } := by
  intro cfg e s
  exact ⟨rfl,
    by simp [BacktestEngine.addStrategy, Portfolio.init, alistGet_alistSet_self]⟩

/-- The repository config with the transaction cost zeroed out — the same
explicit engine inputs under a different module-config state. -/
def cfg9 : Config :=
  { assetTicker := "SPY", hmmStates := 2, initialCapital := 10000,
    transactionCost := 0 }

set_option maxHeartbeats 1000000 in
/-- C9 counterexample: two engines given identical explicit parameters (the
same data frame and the same registered strategy) but constructed under
different module-level `config.TRANSACTION_COST` values produce different
results — engine behaviour is not determined by the plain value parameters
it was given, because the cost rate is read from mutable module state. -/
theorem c9_counterexample_module_config_dependence :
    (benchSetup df1 [sigStrat] cfg1).data = (benchSetup df1 [sigStrat] cfg9).data
  ∧ cfg1.transactionCost ≠ cfg9.transactionCost
  ∧ Except.map (fun r => r.final.portfolios.map
        (fun q : String × Portfolio => q.2.equitySeries))
      ((benchSetup df1 [sigStrat] cfg1).run)
    ≠ Except.map (fun r => r.final.portfolios.map
        (fun q : String × Portfolio => q.2.equitySeries))
      ((benchSetup df1 [sigStrat] cfg9).run) := by
  refine ⟨rfl, by norm_num [cfg1, cfg9], ?_⟩
  have h1 : Except.map (fun r => r.final.portfolios.map
        (fun q : String × Portfolio => q.2.equitySeries))
      ((benchSetup df1 [sigStrat] cfg1).run)
      = .ok [[9995, 97951/10, 201681109/20000]] := by
    norm_num [benchSetup, BacktestEngine.run, BacktestEngine.create,
      BacktestEngine.addStrategy, trainAll, simRows, simLoop, stepRow, stepOne,
      alistGet, alistSet, Portfolio.init, Portfolio.step, clockOk,
      computeTradeCost, DataFrame.getCol, DataFrame.rowAt, DataFrame.setCol,
      setColList, Portfolio.equitySeries, compileResults, df1, sigStrat, cfg1, List.find?,
      List.foldlM, Except.map, Except.bind, bind, pure, Except.pure,
      Except.instMonad, List.range, List.range.loop]
  have h2 : Except.map (fun r => r.final.portfolios.map
        (fun q : String × Portfolio => q.2.equitySeries))
      ((benchSetup df1 [sigStrat] cfg9).run)
      = .ok [[10000, 9800, 10094]] := by
    norm_num [benchSetup, BacktestEngine.run, BacktestEngine.create,
      BacktestEngine.addStrategy, trainAll, simRows, simLoop, stepRow, stepOne,
      alistGet, alistSet, Portfolio.init, Portfolio.step, clockOk,
      computeTradeCost, DataFrame.getCol, DataFrame.rowAt, DataFrame.setCol,
      setColList, Portfolio.equitySeries, compileResults, df1, sigStrat, cfg9, List.find?,
      List.foldlM, Except.map, Except.bind, bind, pure, Except.pure,
      Except.instMonad, List.range, List.range.loop]
  rw [h1, h2]
  intro hcontra
  simp only [Except.ok.injEq, List.cons.injEq] at hcontra
  norm_num at hcontra

/-- C9 (amended): engine behaviour is determined by its explicit parameters
together with the module-config fields the core actually reads —
`INITIAL_CAPITAL` (at registration) and `TRANSACTION_COST` (at
construction).  Two engines with identical explicit parameters and
identical values of those two fields produce identical setups and results,
regardless of the other mutable config fields (`ASSET_TICKER`,
`HMM_STATES`, the ones the Run-Benchmark handler overwrites). -/
theorem c9_results_determined_by_read_config :
    ∀ (data : DataFrame) (ss : List Strategy) (c1 c2 : Config),
    c1.initialCapital = c2.initialCapital →
    c1.transactionCost = c2.transactionCost →
    benchSetup data ss c1 = benchSetup data ss c2
  ∧ (benchSetup data ss c1).run = (benchSetup data ss c2).run := by
  intro data ss c1 c2 hic htc
  have hadd : BacktestEngine.addStrategy c1 = BacktestEngine.addStrategy c2 := by
    funext e s
    simp [BacktestEngine.addStrategy, hic]
  have hsetup : benchSetup data ss c1 = benchSetup data ss c2 := by
    simp [benchSetup, BacktestEngine.create, htc, hadd]
  exact ⟨hsetup, by rw [hsetup]⟩

/-- A config differing from `cfg1` only in the handler-mutated fields. -/
def cfgQ : Config :=
  { assetTicker := "QQQ", hmmStates := 4, initialCapital := 10000,
    transactionCost := 1/2000 }

/-- C9 witness: configs differing only in the handler-mutated fields
(`ASSET_TICKER`, `HMM_STATES`) give identical engines and results. -/
theorem c9_results_determined_by_read_config_witness :
    (cfgQ.initialCapital = cfg1.initialCapital
     ∧ cfgQ.transactionCost = cfg1.transactionCost)
  ∧ benchSetup df1 [sigStrat] cfgQ = benchSetup df1 [sigStrat] cfg1 :=
  ⟨⟨rfl, rfl⟩,
   (c9_results_determined_by_read_config df1 [sigStrat] cfgQ cfg1 rfl rfl).1⟩

theorem append_Equity_ne_rsi (s : String) : s ++ "_Equity" ≠ "RSI_14" := by
  intro h
  have hlen := congrArg String.length h
  have h7 : ("_Equity" : String).length = 7 := rfl
  have h6 : ("RSI_14" : String).length = 6 := rfl
  rw [String.length_append, h7, h6] at hlen
  omega

theorem append_Signal_ne_rsi (s : String) : s ++ "_Signal" ≠ "RSI_14" := by
  intro h
  have hlen := congrArg String.length h
  have h7 : ("_Signal" : String).length = 7 := rfl
  have h6 : ("RSI_14" : String).length = 6 := rfl
  rw [String.length_append, h7, h6] at hlen
  omega

/-- The results-compilation loop only assigns `<name>_Equity` and
`<name>_Signal` columns, so it leaves the `RSI_14` column untouched. -/
theorem compileResults_preserves_rsi :
    ∀ (ports : List (String × Portfolio))
      (hist : List (String × (List ℤ × List ℚ))) (df0 res : DataFrame),
    compileResults hist ports df0 = .ok res →
    res.getCol "RSI_14" = df0.getCol "RSI_14" := by
  intro ports
  induction ports with
  | nil =>
      intro hist df0 res h
      simp only [compileResults, Except.ok.injEq] at h
      subst h
      rfl
  | cons p t ih =>
      intro hist df0 res h
      simp only [compileResults] at h
      cases hg : alistGet p.1 hist with
      | none =>
          rw [hg] at h
          simp at h
      | some hc =>
          rw [hg] at h
          have hres := ih hist _ res h
          rw [hres,
            getCol_setCol_ne _ _ _ _ (Ne.symm (append_Signal_ne_rsi p.1)),
            getCol_setCol_ne _ _ _ _ (Ne.symm (append_Equity_ne_rsi p.1))]

/-- Whatever happens inside the simulation, the results table `run()`
compiles preserves the `RSI_14` column of the trained data frame. -/
theorem run_results_preserve_rsi (e : BacktestEngine) (res : RunOut)
    (df' : DataFrame)
    (htrained : trainAll e.strategies e.data = .ok df')
    (hrun : e.run = .ok res) :
    res.results.getCol "RSI_14" = df'.getCol "RSI_14" := by
  simp only [BacktestEngine.run] at hrun
  rw [htrained] at hrun
  simp only [Except.bind, bind] at hrun
  split at hrun
  · simp at hrun
  · split at hrun
    · simp at hrun
    · split at hrun
      · simp at hrun
      · rename_i resdf hcr
        simp only [Except.ok.injEq] at hrun
        subst hrun
        exact compileResults_preserves_rsi _ _ _ _ hcr

/-- C10: For every history frame lacking the RSI column,
`MeanReversionStrategy.train` mutates the shared frame by assigning the
column `RSI_14` (computed from `Close` with NaNs filled with 50); since the
engine trains every registered strategy on the same shared table, every
strategy trained after it receives the frame with that column, and the
engine's compiled results table still carries it. -/
theorem c10_train_adds_rsi_to_shared_frame :
    ∀ (df : DataFrame) (close : List ℚ) (rest : List Strategy) (cfg : Config),
    df.getCol "RSI_14" = none →
    df.getCol "Close" = some close →
    meanReversion.train df = .ok (df.setCol "RSI_14" (rsiList close))
  ∧ (df.setCol "RSI_14" (rsiList close)).getCol "RSI_14"
      = some (rsiList close)
  ∧ trainAll (meanReversion :: rest) df
      = trainAll rest (df.setCol "RSI_14" (rsiList close))
  ∧ (∀ res,
      (benchSetup df [meanReversion, trendFollowing] cfg).run = .ok res →
      res.results.getCol "RSI_14" = some (rsiList close)) := by
  intro df close rest cfg hrsi hclose
  have htrain : meanReversion.train df
      = .ok (df.setCol "RSI_14" (rsiList close)) := by
    simp [meanReversion, mrTrain, hrsi, hclose]
  have hcons : ∀ (ss : List Strategy), trainAll (meanReversion :: ss) df
      = trainAll ss (df.setCol "RSI_14" (rsiList close)) := by
    intro ss
    rw [trainAll, List.foldlM_cons, htrain]
    rfl
  refine ⟨htrain, getCol_setCol_self df _ _, hcons rest, ?_⟩
  intro res hrun
  have hstrat : (benchSetup df [meanReversion, trendFollowing] cfg).strategies
      = [meanReversion, trendFollowing] := rfl
  have hdata : (benchSetup df [meanReversion, trendFollowing] cfg).data = df := rfl
  have htrained : trainAll
      (benchSetup df [meanReversion, trendFollowing] cfg).strategies
      (benchSetup df [meanReversion, trendFollowing] cfg).data
      = .ok (df.setCol "RSI_14" (rsiList close)) := by
    rw [hstrat, hdata, hcons [trendFollowing]]
    rfl
  rw [run_results_preserve_rsi _ res _ htrained hrun]
  exact getCol_setCol_self df _ _

/-- C10 witness: a two-bar frame with a `Close` column and no RSI column
receives the `RSI_14` column, which the rest of the training pass then
sees. -/
theorem c10_train_adds_rsi_to_shared_frame_witness :
    (df10.getCol "RSI_14" = none ∧ df10.getCol "Close" = some [100, 101])
  ∧ meanReversion.train df10
      = .ok (df10.setCol "RSI_14" (rsiList [100, 101]))
  ∧ trainAll (meanReversion :: [trendFollowing]) df10
      = trainAll [trendFollowing] (df10.setCol "RSI_14" (rsiList [100, 101])) :=
  ⟨⟨rfl, rfl⟩,
   (c10_train_adds_rsi_to_shared_frame df10 [100, 101] [trendFollowing] cfg1
      rfl rfl).1,
   (c10_train_adds_rsi_to_shared_frame df10 [100, 101] [trendFollowing] cfg1
      rfl rfl).2.2.1⟩
